import Mathlib

/-!
Verification of the Montecarlo_PDYA distributed Monte-Carlo system.

The definitions below are a shallow embedding of the Python sources
(`model_parser.py`, `producer.py`, `consumer.py`, `dashboard.py`,
`message_handler.py`).  Python floats are modelled as exact rationals,
Python dictionaries as insertion-ordered association lists, and the
random number generator as an explicit oracle argument.
-/

namespace MontecarloPDYA

/-- Python dict assignment `d[k] = v`: replaces the value stored at an
existing key in place, otherwise appends the new binding at the end
(CPython 3.7+ insertion-order semantics). -/
def dictInsert {α : Type} (d : List (String × α)) (k : String) (v : α) :
    List (String × α) :=
  match d with
  | [] => [(k, v)]
  | (k', v') :: rest => if k' = k then (k', v) :: rest else (k', v') :: dictInsert rest k v

/-- Python dict lookup `d.get(k)`: the value of the first binding with the
given key, if any. -/
def dictLookup {α : Type} (d : List (String × α)) (k : String) : Option α :=
  match d with
  | [] => none
  | (k', v) :: rest => if k' = k then some v else dictLookup rest k

/-- Keys of an association list, in order. -/
def dictKeys {α : Type} (d : List (String × α)) : List String :=
  d.map Prod.fst

/-- Python `dict.get(k, default)` (`model_parser.py`, `Variable.generar_valor`). -/
def pGet (d : List (String × ℚ)) (k : String) (default : ℚ) : ℚ :=
  (dictLookup d k).getD default

/-- Python `str.lower()` restricted to basic latin letters (the distribution
names occurring in this system are plain ASCII identifiers). -/
def pyLower (s : String) : String :=
  String.mk (s.toList.map Char.toLower)

/-- Parameter mapping of a distribution (`parametros` dict). -/
abbrev Params := List (String × ℚ)

/-- Value mapping of a scenario (`valores` dict). -/
abbrev Valores := List (String × ℚ)

/-- Class `Variable` of `model_parser.py`: a model variable together with its
distribution name and parameter dictionary. -/
structure Variable where
  nombre : String
  distribucion : String
  parametros : Params
deriving DecidableEq, Repr

/-- Constructor `Variable.__init__`: stores the name and parameters unchanged and
lower-cases the distribution name. -/
def Variable.mk' (nombre distribucion : String) (parametros : Params) : Variable :=
  ⟨nombre, pyLower distribucion, parametros⟩

/-- Class `Modelo` of `model_parser.py`: the expression string `funcion` and the
variable dictionary built by `__init__` (name → Variable, insertion ordered). -/
structure Modelo where
  funcion : String
  vars : List (String × Variable)
deriving DecidableEq, Repr

/-- Builds the dict comprehension of `Modelo.__init__`:
`{var.nombre: var for var in variables}`. -/
def buildDict (vars : List Variable) : List (String × Variable) :=
  vars.foldl (fun d v => dictInsert d v.nombre v) []

/-- Constructor `Modelo.__init__`. -/
def Modelo.mk' (funcion : String) (vars : List Variable) : Modelo :=
  ⟨funcion, buildDict vars⟩

/-- The serialized form of a model (`Modelo.serializar`): the expression
string and the list of variable records, in dictionary order. -/
structure ModeloSer where
  funcion : String
  vars : List Variable
deriving DecidableEq, Repr

/-- Method `Modelo.serializar`: emits the expression and, for each variable of the
dict in order, its name, distribution and parameters. -/
def Modelo.serializar (m : Modelo) : ModeloSer :=
  ⟨m.funcion, m.vars.map Prod.snd⟩

/-- Method `Modelo.deserializar`: rebuilds each `Variable` through the constructor
and then rebuilds the model through `Modelo.__init__`. -/
def Modelo.deserializar (d : ModeloSer) : Modelo :=
  Modelo.mk' d.funcion
    (d.vars.map fun v => Variable.mk' v.nombre v.distribucion v.parametros)

/-! ## Distribution sampling (`Variable.generar_valor`) -/

/-- The distribution call that `Variable.generar_valor` issues to
`np.random`, with the parameter values it passes (defaults filled in
through `dict.get`). -/
inductive DistCall where
  | normal (media desviacion : ℚ)
  | uniform (mn mx : ℚ)
  | exponencial (lam : ℚ)
  | triangular (izq modo der : ℚ)
deriving DecidableEq, Repr

/-- The branch structure of `Variable.generar_valor`: which `np.random`
call is made, with which parameters; an unsupported distribution name
raises `ValueError`. -/
def distCall (v : Variable) : Except String DistCall :=
  if v.distribucion = "normal" then
    .ok (.normal (pGet v.parametros ("media") 0) (pGet v.parametros ("desviacion") 1))
  else if v.distribucion = "uniform" then
    .ok (.uniform (pGet v.parametros ("min") 0) (pGet v.parametros ("max") 1))
  else if v.distribucion = "exponencial" then
    .ok (.exponencial (pGet v.parametros ("lambda") 1))
  else if v.distribucion = "triangular" then
    .ok (.triangular (pGet v.parametros ("left") 0) (pGet v.parametros ("mode") (1/2))
      (pGet v.parametros ("right") 1))
  else .error (String.append ("Distribucion no soportada: ") v.distribucion)

/-- The distribution names `generar_valor` supports. -/
def distSoportada (v : Variable) : Prop :=
  v.distribucion ∈ (["normal", "uniform", "exponencial", "triangular"] : List String)

instance (v : Variable) : Decidable (distSoportada v) := by
  unfold distSoportada; infer_instance

/-- Parameter validation performed by the `np.random` samplers themselves:
`normal` and `exponential` raise `ValueError` on a negative scale,
`triangular` raises unless `left ≤ mode ≤ right` with `left < right`;
`uniform` does not validate its bounds. -/
def distCallValida : DistCall → Bool
  | .normal _ desviacion => decide ((0 : ℚ) ≤ desviacion)
  | .uniform _ _ => true
  | .exponencial lam => decide ((0 : ℚ) ≤ lam)
  | .triangular izq modo der =>
    decide (izq ≤ modo) && decide (modo ≤ der) && decide (izq < der)

/-- A variable whose `generar_valor` call succeeds: supported distribution
kind and parameters the `np.random` sampler accepts. -/
def muestreoValido (v : Variable) : Bool :=
  match distCall v with
  | .ok c => distCallValida c
  | .error _ => false

/-- Method `Variable.generar_valor`, with the random number generator modelled as
an oracle mapping the issued distribution call to the drawn value; the
embedded `np.random` call raises `ValueError` on parameters outside its
accepted domain. -/
def generarValor (v : Variable) (rng : DistCall → ℚ) : Except String ℚ :=
  match distCall v with
  | .ok c =>
    if distCallValida c then .ok (rng c)
    else .error ("ValueError: parametro fuera de dominio")
  | .error e => .error e

/-- The loop body of `Modelo.generar_escenario`: one entry per variable of
the dict, in order. -/
def genEsc (vars : List (String × Variable)) (rng : DistCall → ℚ) :
    Except String Valores :=
  match vars with
  | [] => .ok []
  | (nom, v) :: rest =>
    match generarValor v rng with
    | .error e => .error e
    | .ok x =>
      match genEsc rest rng with
      | .error e => .error e
      | .ok tail => .ok ((nom, x) :: tail)

/-- Method `Modelo.generar_escenario`. -/
def generarEscenario (m : Modelo) (rng : DistCall → ℚ) : Except String Valores :=
  genEsc m.vars rng

/-! ## Expression evaluation (`Modelo.ejecutar`)

`Modelo.ejecutar` compiles `self.funcion` and evaluates it with
`eval(code, {"__builtins__": {}}, contexto)`.  Compiled Python
expressions are modelled by the AST `Expr`; the evaluation context and
name-resolution rules are translated from the source. -/

/-- Run-time values that can flow through an evaluated expression: floats,
the whitelisted numpy functions, the numpy module object bound to `np`,
and the empty dict bound to `__builtins__` in the globals. -/
inductive Value where
  | float (q : ℚ)
  | fn (nombre : String)
  | modNp
  | emptyDict
deriving DecidableEq, Repr

/-- The transcendental functions of the whitelist, left abstract: the
embedding does not verify floating-point numerics, only which function
object is applied to which argument. -/
structure MathLib where
  sin : ℚ → ℚ
  cos : ℚ → ℚ
  exp : ℚ → ℚ
  log : ℚ → ℚ
  sqrt : ℚ → ℚ

/-- A trivial interpretation of the transcendental functions, used to
instantiate theorems at concrete inputs. -/
def libTriv : MathLib := ⟨id, id, id, id, id⟩

/-- The bindings that `Modelo.ejecutar` adds to the evaluation context via
`contexto.update({...})`, in source order. -/
def whitelistPairs : List (String × Value) :=
  [("np", .modNp), ("sin", .fn ("sin")), ("cos", .fn ("cos")), ("exp", .fn ("exp")),
   ("log", .fn ("log")), ("sqrt", .fn ("sqrt")), ("abs", .fn ("abs")),
   ("max", .fn ("maximum")), ("min", .fn ("minimum"))]

/-- The eight whitelisted math-function names of the specification. -/
def whitelistNames : List String :=
  ["sin", "cos", "exp", "log", "sqrt", "abs", "max", "min"]

/-- The context construction `contexto = valores.copy(); contexto.update({...})`. -/
def contexto (valores : Valores) : List (String × Value) :=
  whitelistPairs.foldl (fun d p => dictInsert d p.1 p.2)
    (valores.map fun p => (p.1, Value.float p.2))

/-- Name resolution of `eval` with locals `contexto` and globals
`{"__builtins__": {}}`: locals first, then the single global binding;
the builtins dict is empty so every other name is unresolved. -/
def lookupName (ctx : List (String × Value)) (s : String) : Option Value :=
  match dictLookup ctx s with
  | some v => some v
  | none => if s = "__builtins__" then some .emptyDict else none

/-- Attributes of the numpy module reachable through the context name `np`,
restricted to the fragment of the numpy namespace this development
mentions (each listed attribute really is a numpy function). -/
def npAttr (campo : String) : Option Value :=
  if campo = "sin" then some (.fn ("sin"))
  else if campo = "cos" then some (.fn ("cos"))
  else if campo = "exp" then some (.fn ("exp"))
  else if campo = "log" then some (.fn ("log"))
  else if campo = "sqrt" then some (.fn ("sqrt"))
  else if campo = "abs" then some (.fn ("abs"))
  else if campo = "maximum" then some (.fn ("maximum"))
  else if campo = "minimum" then some (.fn ("minimum"))
  else none

/-- Compiled Python expressions (the fragment relevant to model formulas):
numeric literals, names, unary minus, arithmetic, calls and attribute
access. -/
inductive Expr where
  | num (q : ℚ)
  | name (s : String)
  | neg (e : Expr)
  | add (a b : Expr)
  | sub (a b : Expr)
  | mul (a b : Expr)
  | div (a b : Expr)
  | call0 (f : Expr)
  | call1 (f a : Expr)
  | call2 (f a b : Expr)
  | attr (e : Expr) (campo : String)
deriving DecidableEq, Repr

/-- The names an expression references. -/
def freeNames : Expr → List String
  | .num _ => []
  | .name s => [s]
  | .neg e => freeNames e
  | .add a b => freeNames a ++ freeNames b
  | .sub a b => freeNames a ++ freeNames b
  | .mul a b => freeNames a ++ freeNames b
  | .div a b => freeNames a ++ freeNames b
  | .call0 f => freeNames f
  | .call1 f a => freeNames f ++ freeNames a
  | .call2 f a b => freeNames f ++ (freeNames a ++ freeNames b)
  | .attr e _ => freeNames e

/-- Application of a whitelisted function object to one argument; numpy
ufuncs applied to a non-numeric argument, and the binary functions
applied to one argument, raise `TypeError`. -/
def apply1 (lib : MathLib) (f : String) (v : Value) : Except String Value :=
  match v with
  | .float q =>
    if f = "sin" then .ok (.float (lib.sin q))
    else if f = "cos" then .ok (.float (lib.cos q))
    else if f = "exp" then .ok (.float (lib.exp q))
    else if f = "log" then .ok (.float (lib.log q))
    else if f = "sqrt" then .ok (.float (lib.sqrt q))
    else if f = "abs" then .ok (.float |q|)
    else .error ("TypeError: arity")
  | _ => .error ("TypeError: ufunc argument")

/-- Application of a whitelisted function object to two arguments. -/
def apply2 (f : String) (v w : Value) : Except String Value :=
  match v, w with
  | .float a, .float b =>
    if f = "maximum" then .ok (.float (max a b))
    else if f = "minimum" then .ok (.float (min a b))
    else .error ("TypeError: arity")
  | _, _ => .error ("TypeError: ufunc argument")

/-- Python binary arithmetic on floats; `TypeError` on non-numeric
operands; float division by zero raises `ZeroDivisionError`. -/
def binOp (op : String) (v w : Value) : Except String Value :=
  match v, w with
  | .float a, .float b =>
    if op = "div" then
      if b = 0 then .error ("ZeroDivisionError") else .ok (.float (a / b))
    else if op = "add" then .ok (.float (a + b))
    else if op = "sub" then .ok (.float (a - b))
    else .ok (.float (a * b))
  | _, _ => .error ("TypeError: binary operand")

/-- Evaluation of a compiled expression against a context, following
Python `eval` semantics for this fragment. -/
def evalExpr (lib : MathLib) (ctx : List (String × Value)) : Expr → Except String Value
  | .num q => .ok (.float q)
  | .name s =>
    match lookupName ctx s with
    | some v => .ok v
    | none => .error (String.append (String.append ("NameError: name ") s) (" is not defined"))
  | .neg e =>
    match evalExpr lib ctx e with
    | .error msg => .error msg
    | .ok (.float q) => .ok (.float (-q))
    | .ok _ => .error ("TypeError: unary operand")
  | .add a b =>
    match evalExpr lib ctx a with
    | .error msg => .error msg
    | .ok va =>
      match evalExpr lib ctx b with
      | .error msg => .error msg
      | .ok vb => binOp ("add") va vb
  | .sub a b =>
    match evalExpr lib ctx a with
    | .error msg => .error msg
    | .ok va =>
      match evalExpr lib ctx b with
      | .error msg => .error msg
      | .ok vb => binOp ("sub") va vb
  | .mul a b =>
    match evalExpr lib ctx a with
    | .error msg => .error msg
    | .ok va =>
      match evalExpr lib ctx b with
      | .error msg => .error msg
      | .ok vb => binOp ("mul") va vb
  | .div a b =>
    match evalExpr lib ctx a with
    | .error msg => .error msg
    | .ok va =>
      match evalExpr lib ctx b with
      | .error msg => .error msg
      | .ok vb => binOp ("div") va vb
  | .call0 f =>
    match evalExpr lib ctx f with
    | .error msg => .error msg
    | .ok (.fn _) => .error ("TypeError: arity")
    | .ok _ => .error ("TypeError: object is not callable")
  | .call1 f a =>
    match evalExpr lib ctx f with
    | .error msg => .error msg
    | .ok vf =>
      match evalExpr lib ctx a with
      | .error msg => .error msg
      | .ok va =>
        match vf with
        | .fn nm => apply1 lib nm va
        | _ => .error ("TypeError: object is not callable")
  | .call2 f a b =>
    match evalExpr lib ctx f with
    | .error msg => .error msg
    | .ok vf =>
      match evalExpr lib ctx a with
      | .error msg => .error msg
      | .ok va =>
        match evalExpr lib ctx b with
        | .error msg => .error msg
        | .ok vb =>
          match vf with
          | .fn nm => apply2 nm va vb
          | _ => .error ("TypeError: object is not callable")
  | .attr e campo =>
    match evalExpr lib ctx e with
    | .error msg => .error msg
    | .ok (.modNp) =>
      match npAttr campo with
      | some w => .ok w
      | none => .error (String.append ("AttributeError: ") campo)
    | .ok _ => .error (String.append ("AttributeError: ") campo)

/-- Method `Modelo.ejecutar` applied to the compiled form `e` of the model
expression: build the context, evaluate, convert the result with
`float(...)`, and wrap any failure in the `ValueError` the method raises. -/
def ejecutarExpr (lib : MathLib) (e : Expr) (valores : Valores) : Except String ℚ :=
  match evalExpr lib (contexto valores) e with
  | .ok (.float q) => .ok q
  | .ok _ => .error ("Error al ejecutar el modelo: float conversion")
  | .error msg => .error (String.append ("Error al ejecutar el modelo: ") msg)

/-- A sequence of evaluations of the same compiled expression, one per
value mapping, as performed by a worker across scenarios: the method
rebuilds its context from scratch on every call and mutates nothing. -/
def ejecutarSeq (lib : MathLib) (e : Expr) (vss : List Valores) : List (Except String ℚ) :=
  vss.map (ejecutarExpr lib e)

/-! ## Evaluation with the global random generator exposed

The context of `Modelo.ejecutar` binds the entire numpy module to `np`,
so expressions can reach the global random generator through
`np.random`.  The evaluator below extends the value surface with the
`np.random` module object and its zero-argument `rand` method and
threads numpy's global RNG state, modelled as the number of draws
consumed from an abstract draw stream `rand : ℕ → ℚ`.  The pure
`evalExpr` above is its restriction to the `np.random`-free fragment
(proved below), which is the fragment the name-resolution claims use. -/

/-- Values of the evaluator with the random surface: the constructors of
`Value` plus the `np.random` module object and its bound method
`rand`. -/
inductive ValueR where
  | float (q : ℚ)
  | fn (nombre : String)
  | modNp
  | emptyDict
  | modNpRandom
  | fnRand
deriving DecidableEq, Repr

/-- The inclusion of the random-free values into `ValueR`. -/
def toR : Value → ValueR
  | .float q => .float q
  | .fn nombre => .fn nombre
  | .modNp => .modNp
  | .emptyDict => .emptyDict

/-- Attributes of the numpy module including `np.random`; on every other
field it agrees with the random-free fragment `npAttr`. -/
def npAttrR (campo : String) : Option ValueR :=
  if campo = "random" then some .modNpRandom
  else (npAttr campo).map toR

/-- Attributes of the `np.random` module, restricted to the fragment this
development mentions: the zero-argument form of `rand`. -/
def npRandomAttr (campo : String) : Option ValueR :=
  if campo = "rand" then some .fnRand else none

/-- The evaluation context over `ValueR` (the same Python dict as
`contexto`, whose values all lie in the random-free fragment). -/
def contextoR (valores : Valores) : List (String × ValueR) :=
  (contexto valores).map fun p => (p.1, toR p.2)

/-- Name resolution over `ValueR` (locals, then the single
`__builtins__` global). -/
def lookupNameR (ctx : List (String × ValueR)) (s : String) : Option ValueR :=
  match dictLookup ctx s with
  | some v => some v
  | none => if s = "__builtins__" then some .emptyDict else none

/-- One-argument application over `ValueR`; `rand` called with arguments
returns an array, which lies outside the modelled value fragment and is
mapped to an error. -/
def apply1R (lib : MathLib) (f : String) (v : ValueR) : Except String ValueR :=
  match v with
  | .float q =>
    if f = "sin" then .ok (.float (lib.sin q))
    else if f = "cos" then .ok (.float (lib.cos q))
    else if f = "exp" then .ok (.float (lib.exp q))
    else if f = "log" then .ok (.float (lib.log q))
    else if f = "sqrt" then .ok (.float (lib.sqrt q))
    else if f = "abs" then .ok (.float |q|)
    else .error ("TypeError: arity")
  | _ => .error ("TypeError: ufunc argument")

/-- Two-argument application over `ValueR`. -/
def apply2R (f : String) (v w : ValueR) : Except String ValueR :=
  match v, w with
  | .float a, .float b =>
    if f = "maximum" then .ok (.float (max a b))
    else if f = "minimum" then .ok (.float (min a b))
    else .error ("TypeError: arity")
  | _, _ => .error ("TypeError: ufunc argument")

/-- Binary arithmetic over `ValueR`. -/
def binOpR (op : String) (v w : ValueR) : Except String ValueR :=
  match v, w with
  | .float a, .float b =>
    if op = "div" then
      if b = 0 then .error ("ZeroDivisionError") else .ok (.float (a / b))
    else if op = "add" then .ok (.float (a + b))
    else if op = "sub" then .ok (.float (a - b))
    else .ok (.float (a * b))
  | _, _ => .error ("TypeError: binary operand")

/-- Does the expression access the `random` attribute anywhere (the only
gate to the impure `np.random` surface)? -/
def usesRandom : Expr → Bool
  | .num _ => false
  | .name _ => false
  | .neg e => usesRandom e
  | .add a b => usesRandom a || usesRandom b
  | .sub a b => usesRandom a || usesRandom b
  | .mul a b => usesRandom a || usesRandom b
  | .div a b => usesRandom a || usesRandom b
  | .call0 f => usesRandom f
  | .call1 f a => usesRandom f || usesRandom a
  | .call2 f a b => usesRandom f || (usesRandom a || usesRandom b)
  | .attr e campo => (campo == "random") || usesRandom e

/-- Evaluation with the random surface: same semantics as `evalExpr` plus
the `np.random` module, whose `rand()` call draws the next value of the
stream and advances the global state (the number of draws made). -/
def evalExprR (lib : MathLib) (rand : ℕ → ℚ) (ctx : List (String × ValueR)) :
    Expr → ℕ → Except String ValueR × ℕ
  | .num q, st => (.ok (.float q), st)
  | .name s, st =>
    match lookupNameR ctx s with
    | some v => (.ok v, st)
    | none =>
      (.error (String.append (String.append ("NameError: name ") s) (" is not defined")), st)
  | .neg e, st =>
    match evalExprR lib rand ctx e st with
    | (.error msg, st1) => (.error msg, st1)
    | (.ok (.float q), st1) => (.ok (.float (-q)), st1)
    | (.ok _, st1) => (.error ("TypeError: unary operand"), st1)
  | .add a b, st =>
    match evalExprR lib rand ctx a st with
    | (.error msg, st1) => (.error msg, st1)
    | (.ok va, st1) =>
      match evalExprR lib rand ctx b st1 with
      | (.error msg, st2) => (.error msg, st2)
      | (.ok vb, st2) => (binOpR ("add") va vb, st2)
  | .sub a b, st =>
    match evalExprR lib rand ctx a st with
    | (.error msg, st1) => (.error msg, st1)
    | (.ok va, st1) =>
      match evalExprR lib rand ctx b st1 with
      | (.error msg, st2) => (.error msg, st2)
      | (.ok vb, st2) => (binOpR ("sub") va vb, st2)
  | .mul a b, st =>
    match evalExprR lib rand ctx a st with
    | (.error msg, st1) => (.error msg, st1)
    | (.ok va, st1) =>
      match evalExprR lib rand ctx b st1 with
      | (.error msg, st2) => (.error msg, st2)
      | (.ok vb, st2) => (binOpR ("mul") va vb, st2)
  | .div a b, st =>
    match evalExprR lib rand ctx a st with
    | (.error msg, st1) => (.error msg, st1)
    | (.ok va, st1) =>
      match evalExprR lib rand ctx b st1 with
      | (.error msg, st2) => (.error msg, st2)
      | (.ok vb, st2) => (binOpR ("div") va vb, st2)
  | .call0 f, st =>
    match evalExprR lib rand ctx f st with
    | (.error msg, st1) => (.error msg, st1)
    | (.ok .fnRand, st1) => (.ok (.float (rand st1)), st1 + 1)
    | (.ok (.fn _), st1) => (.error ("TypeError: arity"), st1)
    | (.ok _, st1) => (.error ("TypeError: object is not callable"), st1)
  | .call1 f a, st =>
    match evalExprR lib rand ctx f st with
    | (.error msg, st1) => (.error msg, st1)
    | (.ok vf, st1) =>
      match evalExprR lib rand ctx a st1 with
      | (.error msg, st2) => (.error msg, st2)
      | (.ok va, st2) =>
        match vf with
        | .fn nm => (apply1R lib nm va, st2)
        | .fnRand => (.error ("TypeError: ufunc argument"), st2)
        | _ => (.error ("TypeError: object is not callable"), st2)
  | .call2 f a b, st =>
    match evalExprR lib rand ctx f st with
    | (.error msg, st1) => (.error msg, st1)
    | (.ok vf, st1) =>
      match evalExprR lib rand ctx a st1 with
      | (.error msg, st2) => (.error msg, st2)
      | (.ok va, st2) =>
        match evalExprR lib rand ctx b st2 with
        | (.error msg, st3) => (.error msg, st3)
        | (.ok vb, st3) =>
          match vf with
          | .fn nm => (apply2R nm va vb, st3)
          | .fnRand => (.error ("TypeError: ufunc argument"), st3)
          | _ => (.error ("TypeError: object is not callable"), st3)
  | .attr e campo, st =>
    match evalExprR lib rand ctx e st with
    | (.error msg, st1) => (.error msg, st1)
    | (.ok .modNp, st1) =>
      match npAttrR campo with
      | some w => (.ok w, st1)
      | none => (.error (String.append ("AttributeError: ") campo), st1)
    | (.ok .modNpRandom, st1) =>
      match npRandomAttr campo with
      | some w => (.ok w, st1)
      | none => (.error (String.append ("AttributeError: ") campo), st1)
    | (.ok _, st1) => (.error (String.append ("AttributeError: ") campo), st1)

/-- Method `Modelo.ejecutar` over the evaluator with the random surface. -/
def ejecutarExprR (lib : MathLib) (rand : ℕ → ℚ) (e : Expr) (valores : Valores)
    (st : ℕ) : Except String ℚ × ℕ :=
  match evalExprR lib rand (contextoR valores) e st with
  | (.ok (.float q), st1) => (.ok q, st1)
  | (.ok _, st1) => (.error ("Error al ejecutar el modelo: float conversion"), st1)
  | (.error msg, st1) => (.error (String.append ("Error al ejecutar el modelo: ") msg), st1)

/-- A sequence of evaluations of the same compiled expression across
scenarios, threading numpy's global RNG state from call to call. -/
def ejecutarSeqR (lib : MathLib) (rand : ℕ → ℚ) (e : Expr) :
    List Valores → ℕ → List (Except String ℚ) × ℕ
  | [], st => ([], st)
  | v :: rest, st =>
    match ejecutarExprR lib rand e v st with
    | (r, st1) =>
      match ejecutarSeqR lib rand e rest st1 with
      | (rs, st2) => (r :: rs, st2)

/-! ## Model file parsing (`ParserModelo.parsear_archivo`)

The method reads the file and applies `re.search` for
`FUNCION:\s*(.+)` and `VARIABLES:\s*\n((?:.+\n?)+)` (case-insensitive),
then matches every line against `(\w+):\s*(\w+)\((.*?)\)`.  The regex
semantics (left-to-right search, greedy/backtracking quantifiers, `.`
not matching a newline) are implemented below for these patterns. -/

/-- Python `\s` on ASCII text: space, tab, newline, carriage return,
vertical tab, form feed. -/
def isPySpace (c : Char) : Bool :=
  c = ' ' || c = '\t' || c = '\n' || c = '\r' || c = '\x0b' || c = '\x0c'

/-- Python `\w` on ASCII text: letters, digits and underscore. -/
def isWordChar (c : Char) : Bool :=
  c.isAlphanum || c = '_'

/-- Case-insensitive prefix test (`re.IGNORECASE` keyword matching). -/
def startsWithCI : List Char → List Char → Bool
  | [], _ => true
  | _ :: _, [] => false
  | p :: ps, c :: cs => (p.toLower = c.toLower) && startsWithCI ps cs

/-- Python `str.strip()`. -/
def pyStrip (cs : List Char) : List Char :=
  ((cs.dropWhile isPySpace).reverse.dropWhile isPySpace).reverse

/-- Matches `\s*(.+)` at the current position, returning the group: the
greedy whitespace run backtracks until `.+` can start on a
non-newline character, which then extends to the end of the line. -/
def matchSpacesDotPlus : List Char → Option (List Char)
  | [] => none
  | c :: rest =>
    if isPySpace c then
      match matchSpacesDotPlus rest with
      | some g => some g
      | none => if c = '\n' then none else some ((c :: rest).takeWhile (fun d => d != '\n'))
    else some ((c :: rest).takeWhile (fun d => d != '\n'))

/-- The greedy match of `(?:.+\n?)+` starting on a non-newline character:
consecutive nonempty lines, stopping before an empty line. -/
def takeLines : List Char → List Char
  | [] => []
  | '\n' :: rest =>
    match rest with
    | [] => ['\n']
    | '\n' :: _ => ['\n']
    | _ :: _ => '\n' :: takeLines rest
  | c :: rest => c :: takeLines rest

/-- Matches `((?:.+\n?)+)`: requires at least one non-newline character. -/
def matchLinesPlus (cs : List Char) : Option (List Char) :=
  match cs with
  | [] => none
  | c :: _ => if c = '\n' then none else some (takeLines cs)

/-- Matches `\s*\n((?:.+\n?)+)` at the current position, with the greedy
whitespace run backtracking until a newline followed by a nonempty
line is available. -/
def matchVarsTail : List Char → Option (List Char)
  | [] => none
  | c :: rest =>
    match (if isPySpace c then matchVarsTail rest else none) with
    | some g => some g
    | none => if c = '\n' then matchLinesPlus rest else none

/-- The search `re.search(r'FUNCION:\s*(.+)', contenido, re.IGNORECASE)`: scan start
positions left to right. -/
def searchFuncion : List Char → Option (List Char)
  | [] => none
  | c :: cs =>
    if startsWithCI (("FUNCION:").toList) (c :: cs) then
      match matchSpacesDotPlus ((c :: cs).drop 8) with
      | some g => some g
      | none => searchFuncion cs
    else searchFuncion cs

/-- The search `re.search(r'VARIABLES:\s*\n((?:.+\n?)+)', contenido, ...)`. -/
def searchVariables : List Char → Option (List Char)
  | [] => none
  | c :: cs =>
    if startsWithCI (("VARIABLES:").toList) (c :: cs) then
      match matchVarsTail ((c :: cs).drop 10) with
      | some g => some g
      | none => searchVariables cs
    else searchVariables cs

/-- The match `re.match(r'(\w+):\s*(\w+)\((.*?)\)', linea)`: anchored at the start of
the line; returns the three groups (name, distribution, parameter
text).  The lazy `(.*?)` stops at the first closing parenthesis, which
must exist on the line. -/
def matchVarLine (cs : List Char) : Option (List Char × List Char × List Char) :=
  let nombre := cs.takeWhile isWordChar
  if nombre.isEmpty then none
  else
    match cs.dropWhile isWordChar with
    | ':' :: rest =>
      let rest2 := rest.dropWhile isPySpace
      let dist := rest2.takeWhile isWordChar
      if dist.isEmpty then none
      else
        match rest2.dropWhile isWordChar with
        | '(' :: rest3 =>
          let ps := rest3.takeWhile (fun d => d != ')')
          if (rest3.dropWhile (fun d => d != ')')).isEmpty then none
          else some (nombre, dist, ps)
        | _ => none
    | _ => none

/-- The numeric value of a digit string. -/
def digitsVal (ds : List Char) : ℕ :=
  ds.foldl (fun n c => 10 * n + (c.toNat - 48)) 0

/-- The optional exponent tail of a Python float literal. -/
def parseExpPart (cs : List Char) (mantissa : ℚ) : Option ℚ :=
  match cs with
  | [] => some mantissa
  | c :: r =>
    if c = 'e' || c = 'E' then
      let (esgn, r2) :=
        match r with
        | '+' :: r3 => ((1 : ℤ), r3)
        | '-' :: r3 => ((-1 : ℤ), r3)
        | r3 => ((1 : ℤ), r3)
      let ds := r2.takeWhile Char.isDigit
      let rest := r2.dropWhile Char.isDigit
      if ds.isEmpty || !rest.isEmpty then none
      else some (mantissa * (10 : ℚ) ^ (esgn * (digitsVal ds : ℤ)))
    else none

/-- Python `float(str)` on an already-stripped token: optional sign,
decimal digits with optional fraction, optional exponent (the grammar
of finite float literals; `inf`/`nan` spellings do not occur in model
files and are not modelled).  Returns `none` where `float()` raises
`ValueError`. -/
def pyFloat? (cs : List Char) : Option ℚ :=
  let (sgn, cs1) :=
    match cs with
    | '+' :: r => ((1 : ℚ), r)
    | '-' :: r => ((-1 : ℚ), r)
    | r => ((1 : ℚ), r)
  let intPart := cs1.takeWhile Char.isDigit
  let cs2 := cs1.dropWhile Char.isDigit
  match cs2 with
  | '.' :: r =>
    let frac := r.takeWhile Char.isDigit
    let cs3 := r.dropWhile Char.isDigit
    if intPart.isEmpty && frac.isEmpty then none
    else
      parseExpPart cs3 (sgn * ((digitsVal intPart : ℚ) + (digitsVal frac : ℚ) / (10 : ℚ) ^ frac.length))
  | _ =>
    if intPart.isEmpty then none
    else parseExpPart cs2 (sgn * (digitsVal intPart : ℚ))

/-- The error cases of `parsear_archivo` (all raised as `ValueError`). -/
inductive ParseError where
  | sinFuncion
  | sinVariables
  | malParametro
deriving DecidableEq, Repr

/-- One iteration of the parameter loop: strip the token; tokens without
`=` are skipped; with `=`, `clave, valor = param.split('=')` requires
exactly two parts (otherwise the unpacking raises `ValueError`), and
`float(valor.strip())` must succeed. -/
def parseParam (p : List Char) : Except ParseError (Option (String × ℚ)) :=
  if (pyStrip p).contains '=' then
    match (pyStrip p).splitOn '=' with
    | [clave, valor] =>
      match pyFloat? (pyStrip valor) with
      | some x => .ok (some (String.mk (pyStrip clave), x))
      | none => .error .malParametro
    | _ => .error .malParametro
  else .ok none

/-- The parameter loop of `parsear_archivo`, accumulating into the
`parametros` dict. -/
def parsearParams (ps : List (List Char)) (acc : Params) : Except ParseError Params :=
  match ps with
  | [] => .ok acc
  | p :: rest =>
    match parseParam p with
    | .error e => .error e
    | .ok none => parsearParams rest acc
    | .ok (some (k, x)) => parsearParams rest (dictInsert acc k x)

/-- One iteration of the variable-line loop: strip the line, skip empty
lines and lines that fail the variable regex, otherwise parse the
parameter text and build the `Variable`. -/
def parsearVarLinea (linea : List Char) : Except ParseError (Option Variable) :=
  match matchVarLine (pyStrip linea) with
  | none => .ok none
  | some (nom, dist, ps) =>
    if ps.isEmpty then .ok (some (Variable.mk' (String.mk nom) (String.mk dist) []))
    else
      match parsearParams (ps.splitOn ',') [] with
      | .error e => .error e
      | .ok params => .ok (some (Variable.mk' (String.mk nom) (String.mk dist) params))

/-- The variable-line loop over `variables_texto.split('\n')`. -/
def parsearLineas (ls : List (List Char)) : Except ParseError (List Variable) :=
  match ls with
  | [] => .ok []
  | l :: rest =>
    match parsearVarLinea l with
    | .error e => .error e
    | .ok none => parsearLineas rest
    | .ok (some v) =>
      match parsearLineas rest with
      | .error e => .error e
      | .ok vs => .ok (v :: vs)

/-- Method `ParserModelo.parsear_archivo` applied to the file's text content. -/
def parsear (texto : String) : Except ParseError Modelo :=
  match searchFuncion texto.toList with
  | none => .error .sinFuncion
  | some g =>
    match searchVariables texto.toList with
    | none => .error .sinVariables
    | some vtxt =>
      match parsearLineas ((pyStrip vtxt).splitOn '\n') with
      | .error e => .error e
      | .ok vars => .ok (Modelo.mk' (String.mk (pyStrip g)) vars)

/-- A parameter token on which the parameter loop raises `ValueError`:
it contains `=` and either splits into more than two parts or has a
non-numeric value. -/
def badParamToken (p : List Char) : Bool :=
  (pyStrip p).contains '=' &&
    (match (pyStrip p).splitOn '=' with
     | [_, valor] => (pyFloat? (pyStrip valor)).isNone
     | _ => true)

/-- A variable line whose regex match succeeds but whose parameter text
contains a token the parameter loop raises on. -/
def lineaConParamMalo (l : List Char) : Bool :=
  match matchVarLine (pyStrip l) with
  | some (_, _, ps) => !ps.isEmpty && (ps.splitOn ',').any badParamToken
  | none => false

/-! ## Dispatcher (`producer.py`, `Productor.generar_y_publicar_escenarios`)

The loop `for i in range(1, num_escenarios + 1)` generates one scenario
per iteration and publishes it with id `i`
(`Publicador.publicar_escenario` sends `{'id': i, 'valores': escenario}`).
The published log is modelled as the list of those messages; a sampling
failure aborts the loop. -/

/-- The dispatcher loop from id `i` with `fuel` iterations left: returns
the published `(id, valores)` messages in order and whether the loop
completed. -/
def dispatchLoop (m : Modelo) (rng : ℕ → DistCall → ℚ) : ℕ → ℕ → List (ℕ × Valores) × Bool
  | _, 0 => ([], true)
  | i, n + 1 =>
    match generarEscenario m (rng i) with
    | .ok esc =>
      let r := dispatchLoop m rng (i + 1) n
      ((i, esc) :: r.1, r.2)
    | .error _ => ([], false)

/-- Method `Productor.generar_y_publicar_escenarios` with `num_escenarios = n`. -/
def generarYPublicarEscenarios (m : Modelo) (rng : ℕ → DistCall → ℚ) (n : ℕ) :
    List (ℕ × Valores) × Bool :=
  dispatchLoop m rng 1 n

/-! ## Worker and aggregator callbacks (`consumer.py`, `dashboard.py`) -/

/-- Disposition of one delivered message. -/
inductive Accion where
  | ack
  | nackRequeue
  | nackDrop
deriving DecidableEq, Repr

/-- Outcome of one `publicar_resultado` attempt: success, an exception of
the caught connection-loss kinds (`AMQPConnectionError`,
`StreamLostError`, `OSError`), or any other exception. -/
inductive PubOutcome where
  | ok
  | connLost
  | otherError
deriving DecidableEq, Repr

/-- The outcomes of the fallible steps inside one run of
`ConsumidorEscenarios.callback_escenario`. -/
structure CallbackEntorno where
  parseOk : Bool
  modeloCargado : Bool
  evalOk : Bool
  pub1 : PubOutcome
  reconectaOk : Bool
  pub2 : PubOutcome
deriving DecidableEq, Repr

instance : Fintype CallbackEntorno := by
  have : CallbackEntorno ≃ Bool × Bool × Bool × PubOutcome × Bool × PubOutcome :=
    { toFun := fun e => (e.parseOk, e.modeloCargado, e.evalOk, e.pub1, e.reconectaOk, e.pub2)
      invFun := fun p => ⟨p.1, p.2.1, p.2.2.1, p.2.2.2.1, p.2.2.2.2.1, p.2.2.2.2.2⟩
      left_inv := fun e => rfl
      right_inv := fun p => rfl }
  have i1 : Fintype PubOutcome :=
    ⟨⟨{PubOutcome.ok, PubOutcome.connLost, PubOutcome.otherError}, by decide⟩, by
      intro x; cases x <;> decide⟩
  exact Fintype.ofEquiv _ this.symm

/-- The observable effect of one run of `callback_escenario`: the
disposition sent to the broker, how many results were published, how
many publish attempts and reconnections were made. -/
structure CallbackSalida where
  accion : Accion
  publicados : ℕ
  intentos : ℕ
  reconexiones : ℕ
deriving DecidableEq, Repr

/-- Method `ConsumidorEscenarios.callback_escenario`: parse the body, run the
model, publish the result (with a single reconnect-and-retry when the
first attempt hits a lost connection), then ack; any exception reaches
the outer handler, which nacks with requeue. -/
def callbackEscenario (env : CallbackEntorno) : CallbackSalida :=
  if !env.parseOk then ⟨.nackRequeue, 0, 0, 0⟩
  else if !env.modeloCargado then ⟨.nackRequeue, 0, 0, 0⟩
  else if !env.evalOk then ⟨.nackRequeue, 0, 0, 0⟩
  else
    match env.pub1 with
    | .ok => ⟨.ack, 1, 1, 0⟩
    | .otherError => ⟨.nackRequeue, 0, 1, 0⟩
    | .connLost =>
      if !env.reconectaOk then ⟨.nackRequeue, 0, 1, 1⟩
      else
        match env.pub2 with
        | .ok => ⟨.ack, 1, 2, 1⟩
        | _ => ⟨.nackRequeue, 0, 2, 1⟩

/-- The success condition of `callback_escenario`: everything up to and
including a result publish succeeded, with at most the single
reconnect-and-retry. -/
def exito (env : CallbackEntorno) : Prop :=
  env.parseOk = true ∧ env.modeloCargado = true ∧ env.evalOk = true ∧
    (env.pub1 = .ok ∨ (env.pub1 = .connLost ∧ env.reconectaOk = true ∧ env.pub2 = .ok))

instance (env : CallbackEntorno) : Decidable (exito env) := by
  unfold exito; infer_instance

/-- The callback `callback_modelo` in `ConsumidorEscenarios.cargar_modelo_desde_cola`:
a payload that deserializes is acked, any failure is nacked with
`requeue=True`. -/
def callbackModelo (procesaOk : Bool) : Accion :=
  if procesaOk then .ack else .nackRequeue

/-- The callback `callback_resultado` in `ResultadoReceiver._consumir_resultados`
(`dashboard.py`): a payload that processes is acked, any failure is
nacked with `requeue=False`. -/
def callbackResultado (procesaOk : Bool) : Accion :=
  if procesaOk then .ack else .nackDrop

/-! ## Concrete inputs used to instantiate theorems -/

/-- The compiled form of the expression `np.exp(0)`. -/
def exprNpExp : Expr :=
  Expr.call1 (Expr.attr (Expr.name ("np")) ("exp")) (Expr.num 0)

/-- A concrete model text exercising the full parser. -/
def textoEjemplo : String :=
  "FUNCION: x + y\nVARIABLES:\nx: normal(media=2, desviacion=3)\ny: uniform()"

/-- The model that `parsear textoEjemplo` produces. -/
def modeloEjemplo : Modelo :=
  ⟨"x + y",
   [("x", ⟨"x", "normal", [("media", 2), ("desviacion", 3)]⟩),
    ("y", ⟨"y", "uniform", []⟩)]⟩

/-- A model text whose variable section has lines but none matching the
variable regex. -/
def textoSinLineaValida : String :=
  "FUNCION: x\nVARIABLES:\nbasura"

/-- A model text declaring the same variable name twice. -/
def textoDuplicado : String :=
  "FUNCION: x\nVARIABLES:\nx: normal(media=1)\nx: uniform(min=4)"

/-- A one-variable model used to instantiate the dispatcher theorems. -/
def modeloSimple : Modelo :=
  Modelo.mk' ("x") [Variable.mk' ("x") ("normal") []]

/-- A trivial sampling oracle. -/
def rngTriv : DistCall → ℚ := fun _ => 0

/-- A trivial per-scenario sampling oracle. -/
def rngTrivSeq : ℕ → DistCall → ℚ := fun _ _ => 0

/-- A callback environment whose body fails to parse. -/
def envParseMala : CallbackEntorno :=
  ⟨false, true, true, .ok, true, .ok⟩

/-- The compiled form of the expression `np.random.rand()`. -/
def exprRand : Expr :=
  Expr.call0 (Expr.attr (Expr.attr (Expr.name ("np")) ("random")) ("rand"))

/-- A concrete draw stream for the global random generator. -/
def randDemo : ℕ → ℚ :=
  fun n => if n = 0 then 0 else 1

/-- A parseable model whose distribution kind is supported but whose
parameters the numpy sampler rejects (negative scale). -/
def modeloInvalido : Modelo :=
  Modelo.mk' ("x") [Variable.mk' ("x") ("normal") [(("desviacion"), -1)]]

end MontecarloPDYA

namespace MontecarloPDYA

/-! ## Association-list (Python dict) lemmas -/

theorem dictLookup_dictInsert {α : Type} (d : List (String × α)) (k : String) (v : α)
    (k' : String) :
    dictLookup (dictInsert d k v) k' = if k' = k then some v else dictLookup d k' := by
  induction d with
  | nil =>
    by_cases h : k' = k
    · subst h; simp [dictInsert, dictLookup]
    · simp [dictInsert, dictLookup, h, Ne.symm h]
  | cons p rest ih =>
    obtain ⟨k0, v0⟩ := p
    by_cases h0 : k0 = k
    · subst h0
      by_cases h : k0 = k'
      · subst h; simp [dictInsert, dictLookup]
      · simp [dictInsert, dictLookup, h, Ne.symm h]
    · by_cases h1 : k0 = k'
      · subst h1
        have h2 : ¬ k0 = k := h0
        simp [dictInsert, dictLookup, h2, Ne.symm h2]
      · simp [dictInsert, dictLookup, h0, h1, ih]

theorem dictKeys_dictInsert {α : Type} (d : List (String × α)) (k : String) (v : α) :
    dictKeys (dictInsert d k v) =
      if k ∈ dictKeys d then dictKeys d else dictKeys d ++ [k] := by
  induction d with
  | nil => simp [dictInsert, dictKeys]
  | cons p rest ih =>
    obtain ⟨k0, v0⟩ := p
    by_cases h0 : k0 = k
    · subst h0
      simp [dictInsert, dictKeys]
    · have : ¬ k = k0 := fun h => h0 h.symm
      simp only [dictInsert, if_neg h0, dictKeys, List.map_cons, List.mem_cons]
      simp only [dictKeys] at ih
      rw [ih]
      by_cases hm : k ∈ rest.map Prod.fst <;> simp [hm, this]

theorem mem_dictInsert {α : Type} (d : List (String × α)) (k : String) (v : α)
    (p : String × α) (hp : p ∈ dictInsert d k v) : p ∈ d ∨ p = (k, v) := by
  induction d with
  | nil =>
    simp only [dictInsert, List.mem_singleton] at hp
    right; exact hp
  | cons q rest ih =>
    obtain ⟨k0, v0⟩ := q
    by_cases h0 : k0 = k
    · subst h0
      simp only [dictInsert, if_pos rfl, if_true, eq_self_iff_true, List.mem_cons] at hp
      rcases hp with h | h
      · right; exact h
      · left; exact List.mem_cons_of_mem _ h
    · simp only [dictInsert, if_neg h0, List.mem_cons] at hp
      rcases hp with h | h
      · left; exact h ▸ List.mem_cons_self _ _
      · rcases ih h with h' | h'
        · left; exact List.mem_cons_of_mem _ h'
        · right; exact h'

theorem dictInsert_of_not_mem {α : Type} (d : List (String × α)) (k : String) (v : α)
    (h : k ∉ dictKeys d) : dictInsert d k v = d ++ [(k, v)] := by
  induction d with
  | nil => simp [dictInsert]
  | cons p rest ih =>
    obtain ⟨k0, v0⟩ := p
    simp only [dictKeys, List.map_cons, List.mem_cons] at h
    push_neg at h
    have : k0 ≠ k := fun he => h.1 he.symm
    simp only [dictInsert, if_neg this, List.cons_append, List.cons.injEq, true_and]
    exact ih (by simpa [dictKeys] using h.2)

theorem dictLookup_isSome_iff {α : Type} (d : List (String × α)) (k : String) :
    (dictLookup d k).isSome = true ↔ k ∈ dictKeys d := by
  induction d with
  | nil => simp [dictLookup, dictKeys]
  | cons p rest ih =>
    obtain ⟨k0, v0⟩ := p
    by_cases h : k = k0
    · subst h; simp [dictLookup, dictKeys]
    · simp [dictLookup, dictKeys, h, ih, Ne.symm h]

/-! ## Lower-casing lemmas -/

theorem charOfNat_toNat (n : ℕ) (h : n < 55296) : (Char.ofNat n).toNat = n := by
  unfold Char.ofNat
  rw [dif_pos (Or.inl h)]
  rfl

theorem charToLower_of_not (d : Char) (h : ¬(65 ≤ d.toNat ∧ d.toNat ≤ 90)) :
    Char.toLower d = d := by
  simp only [Char.toLower, ge_iff_le]
  rw [if_neg h]

theorem charToLower_toNat (c : Char) (h : 65 ≤ c.toNat ∧ c.toNat ≤ 90) :
    (Char.toLower c).toNat = c.toNat + 32 := by
  simp only [Char.toLower, ge_iff_le]
  rw [if_pos h]
  exact charOfNat_toNat _ (by omega)

theorem charToLower_idem (c : Char) : (Char.toLower c).toLower = Char.toLower c := by
  by_cases h : 65 ≤ c.toNat ∧ c.toNat ≤ 90
  · apply charToLower_of_not
    rw [charToLower_toNat c h]
    omega
  · rw [charToLower_of_not c h, charToLower_of_not c h]

theorem pyLower_idem (s : String) : pyLower (pyLower s) = pyLower s := by
  unfold pyLower
  have : (String.mk (s.toList.map Char.toLower)).toList = s.toList.map Char.toLower := rfl
  rw [this, List.map_map]
  congr 1
  apply List.map_congr_left
  intro c _
  exact charToLower_idem c

/-! ## Lemmas about the variable dictionary of `Modelo.__init__` -/

theorem buildDict_append (vs : List Variable) (v : Variable) :
    buildDict (vs ++ [v]) = dictInsert (buildDict vs) v.nombre v := by
  unfold buildDict
  rw [List.foldl_append]
  rfl

theorem mem_keys_buildDict (vs : List Variable) :
    ∀ k, k ∈ dictKeys (buildDict vs) ↔ k ∈ vs.map Variable.nombre := by
  induction vs using List.reverseRecOn with
  | nil => simp [buildDict, dictKeys]
  | append_singleton vs v ih =>
    intro k
    rw [buildDict_append, dictKeys_dictInsert]
    by_cases h : v.nombre ∈ dictKeys (buildDict vs)
    · rw [if_pos h, ih k]
      have hv : v.nombre ∈ vs.map Variable.nombre := (ih v.nombre).1 h
      simp only [List.map_append, List.map_cons, List.map_nil, List.mem_append,
        List.mem_singleton]
      constructor
      · exact Or.inl
      · rintro (hh | hh)
        · exact hh
        · rw [hh]; exact hv
    · rw [if_neg h]
      simp [ih k]

theorem keys_buildDict_nodup (vs : List Variable) :
    (dictKeys (buildDict vs)).Nodup := by
  induction vs using List.reverseRecOn with
  | nil => simp [buildDict, dictKeys]
  | append_singleton vs v ih =>
    rw [buildDict_append, dictKeys_dictInsert]
    by_cases h : v.nombre ∈ dictKeys (buildDict vs)
    · rw [if_pos h]; exact ih
    · rw [if_neg h]
      refine List.Nodup.append ih (List.nodup_singleton _) ?_
      intro a ha hmem
      rw [List.mem_singleton] at hmem
      subst hmem
      exact h ha

theorem mem_buildDict (vs : List Variable) (p : String × Variable)
    (hp : p ∈ buildDict vs) : p.2 ∈ vs ∧ p.2.nombre = p.1 := by
  induction vs using List.reverseRecOn with
  | nil => simp [buildDict] at hp
  | append_singleton vs v ih =>
    rw [buildDict_append] at hp
    rcases mem_dictInsert _ _ _ _ hp with h | h
    · obtain ⟨h1, h2⟩ := ih h
      exact ⟨List.mem_append_left _ h1, h2⟩
    · rw [h]
      exact ⟨List.mem_append_right _ (List.mem_singleton.2 rfl), rfl⟩

theorem buildDict_of_nodup (vs : List Variable)
    (h : (vs.map Variable.nombre).Nodup) :
    buildDict vs = vs.map (fun v => (v.nombre, v)) := by
  induction vs using List.reverseRecOn with
  | nil => simp [buildDict]
  | append_singleton vs v ih =>
    rw [buildDict_append]
    simp only [List.map_append, List.map_cons, List.map_nil, List.nodup_append] at h
    obtain ⟨h1, _, h3⟩ := h
    have hv : v.nombre ∉ dictKeys (buildDict vs) := by
      rw [mem_keys_buildDict]
      intro hmem
      exact h3 hmem (List.mem_singleton.2 rfl)
    rw [dictInsert_of_not_mem _ _ _ hv, ih h1]
    simp

/-! ## Serialization round trip -/

theorem map_id_of_mem {α : Type} (l : List α) (f : α → α) (h : ∀ x ∈ l, f x = x) :
    l.map f = l := by
  induction l with
  | nil => rfl
  | cons x xs ih =>
    simp only [List.map_cons, h x (List.mem_cons_self x xs)]
    rw [ih (fun y hy => h y (List.mem_cons_of_mem x hy))]

theorem deserializar_serializar (f : String) (vs : List Variable)
    (h : ∀ v ∈ vs, pyLower v.distribucion = v.distribucion) :
    Modelo.deserializar (Modelo.serializar (Modelo.mk' f vs)) = Modelo.mk' f vs := by
  unfold Modelo.deserializar Modelo.serializar
  simp only [Modelo.mk']
  have h1 : ((buildDict vs).map Prod.snd).map
      (fun v => Variable.mk' v.nombre v.distribucion v.parametros) =
      (buildDict vs).map Prod.snd := by
    apply map_id_of_mem
    intro v hv
    obtain ⟨p, hp, hpv⟩ := List.mem_map.1 hv
    have hvs : v ∈ vs := hpv ▸ (mem_buildDict vs p hp).1
    show Variable.mk v.nombre (pyLower v.distribucion) v.parametros = v
    rw [h v hvs]
  rw [h1]
  have h2 : ((buildDict vs).map Prod.snd).map Variable.nombre = dictKeys (buildDict vs) := by
    rw [List.map_map]
    apply List.map_congr_left
    intro p hp
    exact (mem_buildDict vs p hp).2
  have h3 : (((buildDict vs).map Prod.snd).map Variable.nombre).Nodup := by
    rw [h2]; exact keys_buildDict_nodup vs
  have h4 : buildDict ((buildDict vs).map Prod.snd) = buildDict vs := by
    rw [buildDict_of_nodup _ h3, List.map_map]
    have : ∀ p ∈ buildDict vs,
        ((fun v => (v.nombre, v)) ∘ Prod.snd) p = id p := by
      intro p hp
      have := (mem_buildDict vs p hp).2
      simp only [Function.comp_apply, id_eq, this]
    rw [List.map_congr_left this, List.map_id]
  rw [h4]

theorem parsearVarLinea_lower (l : List Char) (v : Variable)
    (hl : parsearVarLinea l = .ok (some v)) :
    pyLower v.distribucion = v.distribucion := by
  unfold parsearVarLinea at hl
  split at hl
  · exact absurd hl (by simp)
  · split at hl
    · injection hl with h1
      injection h1 with h2
      rw [← h2]
      simp only [Variable.mk']
      exact pyLower_idem _
    · split at hl
      · exact absurd hl (by simp)
      · injection hl with h1
        injection h1 with h2
        rw [← h2]
        simp only [Variable.mk']
        exact pyLower_idem _

theorem parsearLineas_lower (ls : List (List Char)) (vars : List Variable)
    (h : parsearLineas ls = .ok vars) :
    ∀ v ∈ vars, pyLower v.distribucion = v.distribucion := by
  induction ls generalizing vars with
  | nil =>
    intro v hv
    unfold parsearLineas at h
    injection h with h'
    rw [← h'] at hv
    exact absurd hv (by simp)
  | cons l rest ih =>
    intro v hv
    unfold parsearLineas at h
    split at h
    · exact absurd h (by simp)
    · exact ih vars h v hv
    · rename_i w hw
      split at h
      · exact absurd h (by simp)
      · rename_i vs' hvs'
        injection h with h'
        rw [← h'] at hv
        rcases List.mem_cons.1 hv with h'' | h''
        · rw [h'']
          exact parsearVarLinea_lower l w hw
        · exact ih vs' hvs' v h''

/-- C3.  For every syntactically valid model text, serializing the parsed
Model and then deserializing yields a Model equal field-for-field to the
parsed Model (and parsing is a pure function, so equal to parsing the
text once more). -/
theorem claim_C3 (texto : String) (m : Modelo) (h : parsear texto = .ok m) :
    Modelo.deserializar (Modelo.serializar m) = m := by
  unfold parsear at h
  split at h
  · exact absurd h (by simp)
  · split at h
    · exact absurd h (by simp)
    · split at h
      · exact absurd h (by simp)
      · rename_i vars hvars
        injection h with h'
        rw [← h']
        exact deserializar_serializar _ _ (parsearLineas_lower _ _ hvars)

/-- C3 witness: the round trip at a concrete model text. -/
theorem claim_C3_witness :
    parsear textoEjemplo = .ok modeloEjemplo ∧
      Modelo.deserializar (Modelo.serializar modeloEjemplo) = modeloEjemplo :=
  ⟨by with_unfolding_all rfl, claim_C3 textoEjemplo modeloEjemplo (by with_unfolding_all rfl)⟩

/-! ## The evaluation context of `Modelo.ejecutar` -/

theorem isSome_lookup_dictInsert {α : Type} (d : List (String × α)) (k : String) (v : α)
    (s : String) :
    ((dictLookup (dictInsert d k v) s).isSome = true) ↔
      (s = k ∨ (dictLookup d s).isSome = true) := by
  rw [dictLookup_dictInsert]
  by_cases h : s = k <;> simp [h]

theorem lookup_contexto_isSome (valores : Valores) (s : String) :
    (dictLookup (contexto valores) s).isSome = true ↔
      s ∈ valores.map Prod.fst ∨ s = "np" ∨ s ∈ whitelistNames := by
  have base : (dictLookup (valores.map fun p => (p.1, Value.float p.2)) s).isSome = true ↔
      s ∈ valores.map Prod.fst := by
    rw [dictLookup_isSome_iff]
    have hk : dictKeys (valores.map fun p => (p.1, Value.float p.2)) =
        valores.map Prod.fst := by
      rw [dictKeys, List.map_map]
      rfl
    rw [hk]
  unfold contexto whitelistPairs
  simp only [List.foldl_cons, List.foldl_nil]
  simp only [isSome_lookup_dictInsert, base, whitelistNames, List.mem_cons,
    List.not_mem_nil, or_false]
  tauto

theorem evalExpr_error_of_freeName (lib : MathLib) (ctx : List (String × Value)) (e : Expr)
    (s : String) (hs : s ∈ freeNames e) (hctx : lookupName ctx s = none) :
    ∃ msg, evalExpr lib ctx e = .error msg := by
  induction e with
  | num q => simp [freeNames] at hs
  | name t =>
    simp only [freeNames, List.mem_singleton] at hs
    subst hs
    exact ⟨String.append (String.append ("NameError: name ") s) (" is not defined"),
      by simp [evalExpr, hctx]⟩
  | neg e ih =>
    obtain ⟨msg, hm⟩ := ih (by simpa [freeNames] using hs)
    exact ⟨msg, by simp [evalExpr, hm]⟩
  | add a b iha ihb =>
    simp only [freeNames, List.mem_append] at hs
    rcases hs with h | h
    · obtain ⟨msg, hm⟩ := iha h
      exact ⟨msg, by simp [evalExpr, hm]⟩
    · cases ha : evalExpr lib ctx a with
      | error m2 => exact ⟨m2, by simp [evalExpr, ha]⟩
      | ok va =>
        obtain ⟨msg, hm⟩ := ihb h
        exact ⟨msg, by simp [evalExpr, ha, hm]⟩
  | sub a b iha ihb =>
    simp only [freeNames, List.mem_append] at hs
    rcases hs with h | h
    · obtain ⟨msg, hm⟩ := iha h
      exact ⟨msg, by simp [evalExpr, hm]⟩
    · cases ha : evalExpr lib ctx a with
      | error m2 => exact ⟨m2, by simp [evalExpr, ha]⟩
      | ok va =>
        obtain ⟨msg, hm⟩ := ihb h
        exact ⟨msg, by simp [evalExpr, ha, hm]⟩
  | mul a b iha ihb =>
    simp only [freeNames, List.mem_append] at hs
    rcases hs with h | h
    · obtain ⟨msg, hm⟩ := iha h
      exact ⟨msg, by simp [evalExpr, hm]⟩
    · cases ha : evalExpr lib ctx a with
      | error m2 => exact ⟨m2, by simp [evalExpr, ha]⟩
      | ok va =>
        obtain ⟨msg, hm⟩ := ihb h
        exact ⟨msg, by simp [evalExpr, ha, hm]⟩
  | div a b iha ihb =>
    simp only [freeNames, List.mem_append] at hs
    rcases hs with h | h
    · obtain ⟨msg, hm⟩ := iha h
      exact ⟨msg, by simp [evalExpr, hm]⟩
    · cases ha : evalExpr lib ctx a with
      | error m2 => exact ⟨m2, by simp [evalExpr, ha]⟩
      | ok va =>
        obtain ⟨msg, hm⟩ := ihb h
        exact ⟨msg, by simp [evalExpr, ha, hm]⟩
  | call0 f ihf =>
    obtain ⟨msg, hm⟩ := ihf (by simpa [freeNames] using hs)
    exact ⟨msg, by simp [evalExpr, hm]⟩
  | call1 f a ihf iha =>
    simp only [freeNames, List.mem_append] at hs
    rcases hs with h | h
    · obtain ⟨msg, hm⟩ := ihf h
      exact ⟨msg, by simp [evalExpr, hm]⟩
    · cases hf : evalExpr lib ctx f with
      | error m2 => exact ⟨m2, by simp [evalExpr, hf]⟩
      | ok vf =>
        obtain ⟨msg, hm⟩ := iha h
        exact ⟨msg, by simp [evalExpr, hf, hm]⟩
  | call2 f a b ihf iha ihb =>
    simp only [freeNames, List.mem_append] at hs
    rcases hs with h | h | h
    · obtain ⟨msg, hm⟩ := ihf h
      exact ⟨msg, by simp [evalExpr, hm]⟩
    · cases hf : evalExpr lib ctx f with
      | error m2 => exact ⟨m2, by simp [evalExpr, hf]⟩
      | ok vf =>
        obtain ⟨msg, hm⟩ := iha h
        exact ⟨msg, by simp [evalExpr, hf, hm]⟩
    · cases hf : evalExpr lib ctx f with
      | error m2 => exact ⟨m2, by simp [evalExpr, hf]⟩
      | ok vf =>
        cases ha : evalExpr lib ctx a with
        | error m2 => exact ⟨m2, by simp [evalExpr, hf, ha]⟩
        | ok va =>
          obtain ⟨msg, hm⟩ := ihb h
          exact ⟨msg, by simp [evalExpr, hf, ha, hm]⟩
  | attr e campo ih =>
    obtain ⟨msg, hm⟩ := ih (by simpa [freeNames] using hs)
    exact ⟨msg, by simp [evalExpr, hm]⟩

/-- C1 counterexample: the expression `np.exp(0)` references only the name
`np`, which is neither a declared variable (the value mapping is empty)
nor one of the eight whitelisted function names, yet `Modelo.ejecutar`
evaluates it successfully: the context exposes the host numpy module. -/
theorem claim_C1_counterexample :
    freeNames exprNpExp = ["np"] ∧
      ("np" ∉ whitelistNames) ∧
      ("np" ∉ (([] : Valores).map Prod.fst)) ∧
      ejecutarExpr libTriv exprNpExp [] = .ok 0 :=
  ⟨rfl, by decide, by decide, by with_unfolding_all rfl⟩

/-- C1 (amended).  The evaluation context of `Modelo.ejecutar` resolves
exactly the declared variables, the eight whitelisted math functions,
the numpy module under the name `np`, and the empty `__builtins__`
mapping of the globals; evaluating an expression that references any
name outside that set fails with an evaluation error. -/
theorem claim_C1_amended (valores : Valores) (s : String) :
    ((lookupName (contexto valores) s).isSome = true ↔
      s ∈ valores.map Prod.fst ∨ s ∈ whitelistNames ∨ s = "np" ∨ s = "__builtins__")
    ∧ (∀ (lib : MathLib) (e : Expr), s ∈ freeNames e →
        s ∉ valores.map Prod.fst → s ∉ whitelistNames → s ≠ "np" → s ≠ "__builtins__" →
        ∃ msg, ejecutarExpr lib e valores = .error msg) := by
  have hiff := lookup_contexto_isSome valores s
  constructor
  · unfold lookupName
    cases h : dictLookup (contexto valores) s with
    | some v =>
      rw [h] at hiff
      simp only [Option.isSome_some, true_iff] at hiff
      simp only [Option.isSome_some, true_iff]
      tauto
    | none =>
      rw [h] at hiff
      simp only [Option.isSome_none, false_iff] at hiff
      by_cases hb : s = "__builtins__"
      · simp [hb]
      · simp only [if_neg hb, Option.isSome_none, false_iff]
        tauto
  · intro lib e hse hmem hwl hnp hbi
    have hln : lookupName (contexto valores) s = none := by
      unfold lookupName
      cases h : dictLookup (contexto valores) s with
      | some v =>
        exfalso
        rw [h] at hiff
        simp only [Option.isSome_some, true_iff] at hiff
        tauto
      | none => simp [hbi]
    obtain ⟨msg, hmsg⟩ := evalExpr_error_of_freeName lib _ e s hse hln
    exact ⟨String.append ("Error al ejecutar el modelo: ") msg, by simp [ejecutarExpr, hmsg]⟩

/-- C1 witness: a name that is neither declared, whitelisted, `np` nor
`__builtins__` fails to evaluate. -/
theorem claim_C1_witness :
    ∃ msg, ejecutarExpr libTriv (Expr.name ("foo")) [] = .error msg :=
  (claim_C1_amended [] ("foo")).2 libTriv (Expr.name ("foo"))
    (by decide) (by decide) (by decide) (by decide) (by decide)

/-! ## Determinism and purity of evaluation -/

theorem dictLookup_map_toR (d : List (String × Value)) (s : String) :
    dictLookup (d.map fun p => (p.1, toR p.2)) s = (dictLookup d s).map toR := by
  induction d with
  | nil => rfl
  | cons p rest ih =>
    obtain ⟨k, v⟩ := p
    by_cases h : k = s <;> simp [dictLookup, h, ih]

theorem lookupNameR_map (ctx : List (String × Value)) (s : String) :
    lookupNameR (ctx.map fun p => (p.1, toR p.2)) s = (lookupName ctx s).map toR := by
  unfold lookupNameR lookupName
  rw [dictLookup_map_toR]
  cases dictLookup ctx s with
  | some v => rfl
  | none => by_cases h : s = "__builtins__" <;> simp [h, toR]

theorem binOpR_toR (op : String) (v w : Value) :
    binOpR op (toR v) (toR w) = (binOp op v w).map toR := by
  cases v <;> cases w <;>
    simp only [binOp, binOpR, toR] <;>
    first
    | rfl
    | (split_ifs <;> rfl)

theorem apply1R_toR (lib : MathLib) (f : String) (v : Value) :
    apply1R lib f (toR v) = (apply1 lib f v).map toR := by
  cases v <;>
    simp only [apply1, apply1R, toR] <;>
    first
    | rfl
    | (split_ifs <;> rfl)

theorem apply2R_toR (f : String) (v w : Value) :
    apply2R f (toR v) (toR w) = (apply2 f v w).map toR := by
  cases v <;> cases w <;>
    simp only [apply2, apply2R, toR] <;>
    first
    | rfl
    | (split_ifs <;> rfl)

theorem evalExprR_pure (lib : MathLib) (rand : ℕ → ℚ) (ctx : List (String × Value))
    (e : Expr) :
    ∀ st : ℕ, usesRandom e = false →
      evalExprR lib rand (ctx.map fun p => (p.1, toR p.2)) e st =
        ((evalExpr lib ctx e).map toR, st) := by
  induction e with
  | num q => intro st he; rfl
  | name s =>
    intro st he
    simp only [evalExprR, evalExpr, lookupNameR_map]
    cases lookupName ctx s <;> rfl
  | neg e ih =>
    intro st he
    simp only [evalExprR, evalExpr, ih st (by simpa [usesRandom] using he)]
    cases h : evalExpr lib ctx e with
    | error msg => rfl
    | ok v => cases v <;> rfl
  | add a b iha ihb =>
    intro st he
    rw [usesRandom] at he
    rw [Bool.or_eq_false_iff] at he
    simp only [evalExprR, evalExpr, iha st he.1]
    cases ha : evalExpr lib ctx a with
    | error msg => rfl
    | ok va =>
      simp only [Except.map, ihb st he.2]
      cases hb : evalExpr lib ctx b with
      | error msg => rfl
      | ok vb => simp only [Except.map, binOpR_toR]
  | sub a b iha ihb =>
    intro st he
    rw [usesRandom] at he
    rw [Bool.or_eq_false_iff] at he
    simp only [evalExprR, evalExpr, iha st he.1]
    cases ha : evalExpr lib ctx a with
    | error msg => rfl
    | ok va =>
      simp only [Except.map, ihb st he.2]
      cases hb : evalExpr lib ctx b with
      | error msg => rfl
      | ok vb => simp only [Except.map, binOpR_toR]
  | mul a b iha ihb =>
    intro st he
    rw [usesRandom] at he
    rw [Bool.or_eq_false_iff] at he
    simp only [evalExprR, evalExpr, iha st he.1]
    cases ha : evalExpr lib ctx a with
    | error msg => rfl
    | ok va =>
      simp only [Except.map, ihb st he.2]
      cases hb : evalExpr lib ctx b with
      | error msg => rfl
      | ok vb => simp only [Except.map, binOpR_toR]
  | div a b iha ihb =>
    intro st he
    rw [usesRandom] at he
    rw [Bool.or_eq_false_iff] at he
    simp only [evalExprR, evalExpr, iha st he.1]
    cases ha : evalExpr lib ctx a with
    | error msg => rfl
    | ok va =>
      simp only [Except.map, ihb st he.2]
      cases hb : evalExpr lib ctx b with
      | error msg => rfl
      | ok vb => simp only [Except.map, binOpR_toR]
  | call0 f ihf =>
    intro st he
    simp only [evalExprR, evalExpr, ihf st (by simpa [usesRandom] using he)]
    cases h : evalExpr lib ctx f with
    | error msg => rfl
    | ok v => cases v <;> rfl
  | call1 f a ihf iha =>
    intro st he
    rw [usesRandom] at he
    rw [Bool.or_eq_false_iff] at he
    simp only [evalExprR, evalExpr, ihf st he.1]
    cases hf : evalExpr lib ctx f with
    | error msg => rfl
    | ok vf =>
      simp only [Except.map, iha st he.2]
      cases ha : evalExpr lib ctx a with
      | error msg => rfl
      | ok va =>
        cases vf with
        | float q => rfl
        | fn nm =>
          show (apply1R lib nm (toR va), st) = ((apply1 lib nm va).map toR, st)
          rw [apply1R_toR]
        | modNp => rfl
        | emptyDict => rfl
  | call2 f a b ihf iha ihb =>
    intro st he
    rw [usesRandom] at he
    rw [Bool.or_eq_false_iff, Bool.or_eq_false_iff] at he
    simp only [evalExprR, evalExpr, ihf st he.1]
    cases hf : evalExpr lib ctx f with
    | error msg => rfl
    | ok vf =>
      simp only [Except.map, iha st he.2.1]
      cases ha : evalExpr lib ctx a with
      | error msg => rfl
      | ok va =>
        simp only [Except.map, ihb st he.2.2]
        cases hb : evalExpr lib ctx b with
        | error msg => rfl
        | ok vb =>
          cases vf with
          | float q => rfl
          | fn nm =>
            show (apply2R nm (toR va) (toR vb), st) = ((apply2 nm va vb).map toR, st)
            rw [apply2R_toR]
          | modNp => rfl
          | emptyDict => rfl
  | attr e campo ih =>
    intro st he
    rw [usesRandom] at he
    rw [Bool.or_eq_false_iff] at he
    have hcampo : ¬ campo = "random" := by simpa using he.1
    simp only [evalExprR, evalExpr, ih st he.2]
    cases h : evalExpr lib ctx e with
    | error msg => rfl
    | ok v =>
      cases v with
      | float q => rfl
      | fn nm => rfl
      | emptyDict => rfl
      | modNp =>
        simp only [Except.map, toR, npAttrR, if_neg hcampo]
        cases hA : npAttr campo with
        | none => simp only [hA, Option.map]
        | some w =>
          simp only [hA, Option.map]
          rfl

theorem ejecutarExprR_pure (lib : MathLib) (rand : ℕ → ℚ) (e : Expr)
    (valores : Valores) (st : ℕ) (he : usesRandom e = false) :
    ejecutarExprR lib rand e valores st = (ejecutarExpr lib e valores, st) := by
  unfold ejecutarExprR ejecutarExpr contextoR
  rw [evalExprR_pure lib rand (contexto valores) e st he]
  cases h : evalExpr lib (contexto valores) e with
  | error msg => rfl
  | ok v => cases v <;> rfl

theorem ejecutarSeqR_pure (lib : MathLib) (rand : ℕ → ℚ) (e : Expr)
    (he : usesRandom e = false) :
    ∀ (vss : List Valores) (st : ℕ),
      ejecutarSeqR lib rand e vss st = (vss.map (ejecutarExpr lib e), st) := by
  intro vss
  induction vss with
  | nil => intro st; rfl
  | cons v rest ih =>
    intro st
    simp only [ejecutarSeqR, ejecutarExprR_pure lib rand e v st he, ih st]
    rfl

/-- C7 counterexample: the expression `np.random.rand()`, reachable because
the context exposes the whole numpy module as `np`, evaluated twice in
succession against the same (empty) value mapping, yields two different
results and advances numpy's global RNG state from 0 to 2 draws: the
evaluator is neither deterministic nor side-effect-free. -/
theorem claim_C7_counterexample :
    usesRandom exprRand = true
    ∧ ejecutarSeqR libTriv randDemo exprRand [[], []] 0 =
        ([Except.ok 0, Except.ok 1], 2)
    ∧ ((0 : ℚ) ≠ 1) := by
  refine ⟨rfl, ?_, by decide⟩
  with_unfolding_all rfl

/-- C7 (amended).  Evaluation mutates no Model state, but it is pure and
deterministic only on expressions that do not reach numpy's global
random generator through the exposed `np` binding: for such expressions
the evaluator with the random surface agrees with the pure evaluator
and leaves the RNG state untouched — both for a single call and across
a whole sequence of scenarios — and the pure evaluator gives identical
results on identical value mappings; an expression calling
`np.random.rand` reads and advances the global state, so two
evaluations with the same inputs can differ (see the counterexample). -/
theorem claim_C7_amended :
    (∀ (lib : MathLib) (rand : ℕ → ℚ) (e : Expr) (valores : Valores) (st : ℕ),
      usesRandom e = false →
        ejecutarExprR lib rand e valores st = (ejecutarExpr lib e valores, st))
    ∧ (∀ (lib : MathLib) (rand : ℕ → ℚ) (e : Expr) (vss : List Valores) (st : ℕ),
      usesRandom e = false →
        ejecutarSeqR lib rand e vss st = (vss.map (ejecutarExpr lib e), st))
    ∧ (∀ (lib : MathLib) (e : Expr) (vss : List Valores) (i j : ℕ),
        vss[i]? = vss[j]? →
          (ejecutarSeq lib e vss)[i]? = (ejecutarSeq lib e vss)[j]?) := by
  refine ⟨?_, ?_, ?_⟩
  · intro lib rand e valores st he
    exact ejecutarExprR_pure lib rand e valores st he
  · intro lib rand e vss st he
    exact ejecutarSeqR_pure lib rand e he vss st
  · intro lib e vss i j h
    simp [ejecutarSeq, h]

/-- C7 witness: a random-free expression evaluated across two scenarios
agrees with the pure evaluator and leaves the RNG state at 0. -/
theorem claim_C7_witness :
    ejecutarSeqR libTriv randDemo (Expr.num 1) [[], []] 0 =
      ([[], []].map (ejecutarExpr libTriv (Expr.num 1)), 0) :=
  claim_C7_amended.2.1 libTriv randDemo (Expr.num 1) [[], []] 0 rfl

/-! ## Worker acknowledgment discipline -/

/-- C2.  In steady state the worker acks a scenario message exactly when a
result for it was successfully published (with a single
reconnect-and-retry after a lost connection); every other outcome is a
negative acknowledgment with requeue; the callback always terminates in
one of those two dispositions (it never crashes a worker), makes at
most two publish attempts and at most one reconnection, and it makes a
second attempt exactly when the first hit a lost connection and the
reconnection succeeded. -/
theorem claim_C2 (env : CallbackEntorno) :
    ((callbackEscenario env).accion = .ack ↔ exito env)
    ∧ ((callbackEscenario env).accion = .ack ∨ (callbackEscenario env).accion = .nackRequeue)
    ∧ ((callbackEscenario env).accion = .ack ↔ (callbackEscenario env).publicados = 1)
    ∧ ((callbackEscenario env).intentos ≤ 2)
    ∧ ((callbackEscenario env).intentos = 2 ↔
        (env.parseOk = true ∧ env.modeloCargado = true ∧ env.evalOk = true ∧
          env.pub1 = .connLost ∧ env.reconectaOk = true))
    ∧ ((callbackEscenario env).reconexiones ≤ 1) := by
  obtain ⟨p, mc, ev, p1, rc, p2⟩ := env
  cases p <;> cases mc <;> cases ev <;> cases p1 <;> cases rc <;> cases p2 <;> decide

/-! ## Malformed-payload handling -/

/-- C4 counterexample: a model-broadcast payload that fails to deserialize
is negatively acknowledged WITH requeue (and so is a malformed scenario
payload), not dropped as the claim states for all three channels. -/
theorem claim_C4_counterexample :
    callbackModelo false = .nackRequeue ∧ callbackModelo false ≠ .nackDrop
    ∧ (callbackEscenario envParseMala).accion = .nackRequeue
    ∧ (callbackEscenario envParseMala).accion ≠ .nackDrop := by
  decide

/-- C4 (amended).  Only the result stream drops malformed payloads
(negative acknowledgment without requeue); the model-broadcast and
scenario-work-queue callbacks negatively acknowledge malformed payloads
WITH requeue. -/
theorem claim_C4_amended :
    (callbackResultado false = .nackDrop)
    ∧ (callbackModelo false = .nackRequeue)
    ∧ (∀ env : CallbackEntorno, env.parseOk = false →
        (callbackEscenario env).accion = .nackRequeue) := by
  refine ⟨rfl, rfl, ?_⟩
  intro env h
  obtain ⟨p, mc, ev, p1, rc, p2⟩ := env
  simp only at h
  subst h
  rfl

/-- C4 witness: the scenario callback on a malformed body requeues. -/
theorem claim_C4_witness :
    (callbackEscenario envParseMala).accion = .nackRequeue :=
  claim_C4_amended.2.2 envParseMala rfl

/-! ## Parse error characterization -/

theorem parseParam_error_iff (p : List Char) :
    (∃ e, parseParam p = .error e) ↔ badParamToken p = true := by
  unfold parseParam badParamToken
  cases h : (pyStrip p).contains '=' with
  | false => simp [h]
  | true =>
    simp only [h, if_true, Bool.true_and]
    cases hsp : (pyStrip p).splitOn '=' with
    | nil => simp
    | cons a t =>
      cases t with
      | nil => simp
      | cons b t2 =>
        cases t2 with
        | nil =>
          cases hf : pyFloat? (pyStrip b) <;> simp [hf]
        | cons c t3 => simp

theorem parseParam_ok_of_not_bad (p : List Char) (h : badParamToken p = false) :
    ∃ o, parseParam p = .ok o := by
  cases hp : parseParam p with
  | error e =>
    have := (parseParam_error_iff p).1 ⟨e, hp⟩
    rw [this] at h
    exact absurd h (by simp)
  | ok o => exact ⟨o, rfl⟩

theorem parsearParams_error_iff (ps : List (List Char)) :
    ∀ acc, (∃ e, parsearParams ps acc = .error e) ↔ ps.any badParamToken = true := by
  induction ps with
  | nil => intro acc; simp [parsearParams]
  | cons p rest ih =>
    intro acc
    unfold parsearParams
    cases hp : parseParam p with
    | error e =>
      have hb : badParamToken p = true := (parseParam_error_iff p).1 ⟨e, hp⟩
      simp [hb]
    | ok o =>
      have hb : badParamToken p = false := by
        cases hbb : badParamToken p
        · rfl
        · obtain ⟨e, he⟩ := (parseParam_error_iff p).2 hbb
          rw [hp] at he
          exact absurd he (by simp)
      cases o with
      | none => simp [hb, ih acc]
      | some kv =>
        obtain ⟨k, x⟩ := kv
        simp [hb, ih (dictInsert acc k x)]

theorem parsearVarLinea_error_iff (l : List Char) :
    (∃ e, parsearVarLinea l = .error e) ↔ lineaConParamMalo l = true := by
  unfold parsearVarLinea lineaConParamMalo
  cases hm : matchVarLine (pyStrip l) with
  | none => simp
  | some trip =>
    obtain ⟨nom, dist, ps⟩ := trip
    by_cases he : ps.isEmpty = true
    · simp [he]
    · have he' : ps.isEmpty = false := by
        cases hh : ps.isEmpty
        · rfl
        · exact absurd hh he
      dsimp only
      rw [if_neg he]
      cases hp : parsearParams (ps.splitOn ',') [] with
      | error e =>
        have hb : (ps.splitOn ',').any badParamToken = true :=
          (parsearParams_error_iff _ []).1 ⟨e, hp⟩
        simp [he', hb]
      | ok params =>
        have hb : (ps.splitOn ',').any badParamToken = false := by
          cases hbb : (ps.splitOn ',').any badParamToken
          · rfl
          · obtain ⟨e, hee⟩ := (parsearParams_error_iff _ []).2 hbb
            rw [hp] at hee
            exact absurd hee (by simp)
        simp [he', hb]

theorem parsearLineas_error_iff (ls : List (List Char)) :
    (∃ e, parsearLineas ls = .error e) ↔ ls.any lineaConParamMalo = true := by
  induction ls with
  | nil => simp [parsearLineas]
  | cons l rest ih =>
    unfold parsearLineas
    cases hl : parsearVarLinea l with
    | error e =>
      have hb : lineaConParamMalo l = true := (parsearVarLinea_error_iff l).1 ⟨e, hl⟩
      simp [hb]
    | ok o =>
      have hb : lineaConParamMalo l = false := by
        cases hbb : lineaConParamMalo l
        · rfl
        · obtain ⟨e, he⟩ := (parsearVarLinea_error_iff l).2 hbb
          rw [hl] at he
          exact absurd he (by simp)
      cases o with
      | none => simp [hb, ih]
      | some v =>
        cases hr : parsearLineas rest with
        | error e =>
          have : rest.any lineaConParamMalo = true := ih.1 ⟨e, hr⟩
          simp [hb, this]
        | ok vs =>
          have : rest.any lineaConParamMalo = false := by
            cases hbb : rest.any lineaConParamMalo
            · rfl
            · obtain ⟨e, he⟩ := ih.2 hbb
              rw [hr] at he
              exact absurd he (by simp)
          simp [hb, this]

/-- C5 counterexample: a model text whose VARIABLES section consists of a
line matching no variable pattern parses successfully into a model with
an empty variable dictionary, instead of failing as the claim states. -/
theorem claim_C5_counterexample :
    parsear textoSinLineaValida = .ok (Modelo.mk ("x") [])
    ∧ searchVariables textoSinLineaValida.toList = some (("basura").toList)
    ∧ matchVarLine (pyStrip (("basura").toList)) = none := by
  refine ⟨?_, rfl, rfl⟩
  with_unfolding_all rfl

/-- C5 (amended).  Parsing fails exactly when the FUNCION pattern finds no
match, the VARIABLES pattern finds no match (section absent or with no
following nonempty line), or some variable line that does match the
variable pattern carries a parameter token containing an equals sign
whose value part is non-numeric or which contains more than one equals
sign; a line that does not match the variable pattern is silently
skipped, and if every line is skipped parsing succeeds with an empty
variable set. -/
theorem claim_C5_amended (texto : String) :
    ((∃ m, parsear texto = .ok m) ↔
      ((searchFuncion texto.toList).isSome = true ∧
        ∃ vtxt, searchVariables texto.toList = some vtxt ∧
          ∀ l ∈ (pyStrip vtxt).splitOn '\n', lineaConParamMalo l = false))
    ∧ (∀ l : List Char, matchVarLine (pyStrip l) = none → parsearVarLinea l = .ok none) := by
  constructor
  · unfold parsear
    cases hf : searchFuncion texto.toList with
    | none => simp
    | some g =>
      cases hv : searchVariables texto.toList with
      | none => simp
      | some vtxt =>
        cases hp : parsearLineas ((pyStrip vtxt).splitOn '\n') with
        | error e =>
          have hb : ((pyStrip vtxt).splitOn '\n').any lineaConParamMalo = true :=
            (parsearLineas_error_iff _).1 ⟨e, hp⟩
          rw [List.any_eq_true] at hb
          obtain ⟨l0, hl0, hbad⟩ := hb
          simp only [hp, Option.isSome_some, true_and]
          constructor
          · rintro ⟨m, hm⟩
            exact absurd hm (by simp)
          · rintro ⟨vtxt', hvv, hall⟩
            injection hvv with hvv'
            subst hvv'
            rw [hall l0 hl0] at hbad
            exact absurd hbad (by simp)
        | ok vars =>
          have hb : ((pyStrip vtxt).splitOn '\n').any lineaConParamMalo = false := by
            cases hbb : ((pyStrip vtxt).splitOn '\n').any lineaConParamMalo
            · rfl
            · obtain ⟨e, he⟩ := (parsearLineas_error_iff _).2 hbb
              rw [hp] at he
              exact absurd he (by simp)
          rw [List.any_eq_false] at hb
          simp only [hp, Option.isSome_some, true_and]
          constructor
          · intro _
            exact ⟨vtxt, rfl, fun l hl => by
              cases hbb : lineaConParamMalo l
              · rfl
              · exact absurd hbb (hb l hl)⟩
          · intro _
            exact ⟨Modelo.mk' (String.mk (pyStrip g)) vars, rfl⟩
  · intro l h
    unfold parsearVarLinea
    rw [h]

/-- C5 witness: the characterization and the skip rule at concrete inputs. -/
theorem claim_C5_witness :
    ∃ m, parsear textoEjemplo = .ok m :=
  (claim_C5_amended textoEjemplo).1.2
    ⟨rfl, ("x: normal(media=2, desviacion=3)\ny: uniform()").toList, rfl,
      by with_unfolding_all decide⟩

/-! ## Scenario generation and dispatch -/

theorem distCall_ok_of_soportada (v : Variable) (h : distSoportada v) :
    ∃ c, distCall v = .ok c := by
  unfold distSoportada at h
  simp only [List.mem_cons, List.not_mem_nil, or_false] at h
  rcases h with h | h | h | h <;>
    exact ⟨_, by unfold distCall; rw [h]; rfl⟩

theorem generarValor_ok (v : Variable) (rng : DistCall → ℚ)
    (h : muestreoValido v = true) : ∃ x, generarValor v rng = .ok x := by
  unfold muestreoValido at h
  cases hc : distCall v with
  | ok c =>
    rw [hc] at h
    dsimp only at h
    exact ⟨rng c, by simp [generarValor, hc, h]⟩
  | error e =>
    rw [hc] at h
    exact absurd h (by simp)

theorem genEsc_ok (vars : List (String × Variable)) (rng : DistCall → ℚ)
    (h : ∀ p ∈ vars, muestreoValido p.2 = true) :
    ∃ esc, genEsc vars rng = .ok esc ∧ esc.map Prod.fst = vars.map Prod.fst := by
  induction vars with
  | nil => exact ⟨[], rfl, rfl⟩
  | cons p rest ih =>
    obtain ⟨nom, v⟩ := p
    obtain ⟨x, hx⟩ := generarValor_ok v rng (h (nom, v) (List.mem_cons_self _ _))
    obtain ⟨esc, hesc, hkeys⟩ := ih (fun q hq => h q (List.mem_cons_of_mem _ hq))
    refine ⟨(nom, x) :: esc, ?_, ?_⟩
    · simp only [genEsc, hx, hesc]
    · simp [hkeys]

theorem genEsc_keys (vars : List (String × Variable)) (rng : DistCall → ℚ)
    (esc : Valores) (h : genEsc vars rng = .ok esc) :
    esc.map Prod.fst = vars.map Prod.fst := by
  induction vars generalizing esc with
  | nil =>
    unfold genEsc at h
    injection h with h'
    rw [← h']
    rfl
  | cons p rest ih =>
    obtain ⟨nom, v⟩ := p
    unfold genEsc at h
    split at h
    · exact absurd h (by simp)
    · split at h
      · exact absurd h (by simp)
      · rename_i tail htail
        injection h with h'
        rw [← h']
        simp only [List.map_cons, List.cons.injEq, true_and]
        exact ih tail htail

theorem dispatchLoop_spec (m : Modelo) (rng : ℕ → DistCall → ℚ)
    (h : ∀ p ∈ m.vars, muestreoValido p.2 = true) :
    ∀ (n i : ℕ), (dispatchLoop m rng i n).1.map Prod.fst = List.range' i n
      ∧ (dispatchLoop m rng i n).2 = true := by
  intro n
  induction n with
  | zero => intro i; exact ⟨rfl, rfl⟩
  | succ n ih =>
    intro i
    obtain ⟨esc, hesc, _⟩ := genEsc_ok m.vars (rng i) h
    have hge : generarEscenario m (rng i) = .ok esc := hesc
    constructor
    · show (dispatchLoop m rng i (n + 1)).1.map Prod.fst = _
      simp only [dispatchLoop, hge]
      rw [List.range'_succ]
      simp only [List.map_cons, List.cons.injEq, true_and]
      exact (ih (i + 1)).1
    · show (dispatchLoop m rng i (n + 1)).2 = true
      simp only [dispatchLoop, hge]
      exact (ih (i + 1)).2

/-- C6 counterexample: a parseable model whose distribution kind is
supported but whose parameter the numpy sampler rejects (normal with
desviacion = -1): the dispatcher run with scenario count 3 aborts at
the first draw and publishes no scenario message at all, so it does not
publish exactly N messages with ids 1..N. -/
theorem claim_C6_counterexample :
    distSoportada (Variable.mk' ("x") ("normal") [(("desviacion"), -1)])
    ∧ (generarYPublicarEscenarios modeloInvalido rngTrivSeq 3).1 = []
    ∧ (generarYPublicarEscenarios modeloInvalido rngTrivSeq 3).2 = false
    ∧ ¬ ((generarYPublicarEscenarios modeloInvalido rngTrivSeq 3).1.map Prod.fst
        = List.range' 1 3) := by
  refine ⟨by decide, ?_, ?_, ?_⟩
  · with_unfolding_all rfl
  · with_unfolding_all rfl
  · with_unfolding_all decide

/-- C6 (amended).  A dispatcher run with scenario count `n` over a model
whose every variable samples successfully — supported distribution kind
and parameters the `np.random` sampler accepts (normal and exponencial
need scale at least 0, triangular needs left at most mode at most right
with left strictly below right) — completes and publishes exactly `n`
scenario messages, whose ids are precisely `1, 2, ..., n` in increasing
order, with no gaps, no repeats, each exactly once; a run whose first
draw raises publishes nothing (see the counterexample). -/
theorem claim_C6_amended (m : Modelo) (rng : ℕ → DistCall → ℚ) (n : ℕ)
    (h : ∀ p ∈ m.vars, muestreoValido p.2 = true) :
    (generarYPublicarEscenarios m rng n).1.map Prod.fst = List.range' 1 n
    ∧ (generarYPublicarEscenarios m rng n).1.length = n
    ∧ ((generarYPublicarEscenarios m rng n).1.map Prod.fst).Nodup
    ∧ (generarYPublicarEscenarios m rng n).2 = true := by
  obtain ⟨h1, h2⟩ := dispatchLoop_spec m rng h n 1
  refine ⟨h1, ?_, ?_, h2⟩
  · have := congrArg List.length h1
    rwa [List.length_map, List.length_range'] at this
  · unfold generarYPublicarEscenarios
    rw [h1]
    exact List.nodup_range' 1 n

/-- C6 witness: dispatching three scenarios of a concrete valid model
yields the ids 1, 2, 3 exactly. -/
theorem claim_C6_witness :
    (generarYPublicarEscenarios modeloSimple rngTrivSeq 3).1.map Prod.fst = List.range' 1 3
    ∧ (generarYPublicarEscenarios modeloSimple rngTrivSeq 3).1.length = 3
    ∧ ((generarYPublicarEscenarios modeloSimple rngTrivSeq 3).1.map Prod.fst).Nodup
    ∧ (generarYPublicarEscenarios modeloSimple rngTrivSeq 3).2 = true :=
  claim_C6_amended modeloSimple rngTrivSeq 3 (by with_unfolding_all decide)

/-- C8.  Every scenario that `Modelo.generar_escenario` successfully
generates has exactly one entry per declared variable, in declaration
order, with no extra and no duplicate keys. -/
theorem claim_C8 (f : String) (vs : List Variable) (rng : DistCall → ℚ) (esc : Valores)
    (h : generarEscenario (Modelo.mk' f vs) rng = .ok esc) :
    esc.map Prod.fst = (Modelo.mk' f vs).vars.map Prod.fst
    ∧ (esc.map Prod.fst).Nodup := by
  have hk := genEsc_keys _ _ _ h
  refine ⟨hk, ?_⟩
  rw [hk]
  exact keys_buildDict_nodup vs

/-- C8 witness: the generated scenario of a concrete one-variable model has
exactly that variable's name as its key set. -/
theorem claim_C8_witness :
    ([(("x"), (0 : ℚ))].map Prod.fst =
      (Modelo.mk' ("x") [Variable.mk' ("x") ("normal") []]).vars.map Prod.fst)
    ∧ (([(("x"), (0 : ℚ))].map Prod.fst).Nodup) :=
  claim_C8 ("x") [Variable.mk' ("x") ("normal") []] rngTriv [(("x"), 0)]
    (by with_unfolding_all rfl)

/-- C9.  `Variable.generar_valor` never fails because a distribution
parameter is missing: for each supported kind every absent parameter is
replaced by its fixed default (normal: media 0, desviacion 1; uniform:
min 0, max 1; exponencial: lambda 1; triangular: left 0, mode 1/2,
right 1), so a variable with an empty parameter list still samples. -/
theorem claim_C9 (nom : String) (ps : Params) :
    distCall (Variable.mk' nom ("normal") ps) =
      .ok (.normal (pGet ps ("media") 0) (pGet ps ("desviacion") 1))
    ∧ distCall (Variable.mk' nom ("uniform") ps) =
      .ok (.uniform (pGet ps ("min") 0) (pGet ps ("max") 1))
    ∧ distCall (Variable.mk' nom ("exponencial") ps) =
      .ok (.exponencial (pGet ps ("lambda") 1))
    ∧ distCall (Variable.mk' nom ("triangular") ps) =
      .ok (.triangular (pGet ps ("left") 0) (pGet ps ("mode") (1/2)) (pGet ps ("right") 1))
    ∧ distCall (Variable.mk' nom ("normal") []) = .ok (.normal 0 1)
    ∧ distCall (Variable.mk' nom ("uniform") []) = .ok (.uniform 0 1)
    ∧ distCall (Variable.mk' nom ("exponencial") []) = .ok (.exponencial 1)
    ∧ distCall (Variable.mk' nom ("triangular") []) = .ok (.triangular 0 (1/2) 1) := by
  refine ⟨?_, ?_, ?_, ?_, ?_, ?_, ?_, ?_⟩ <;> rfl

/-! ## Duplicate variable names -/

theorem dictLookup_buildDict (vs : List Variable) (n : String) :
    dictLookup (buildDict vs) n = vs.reverse.find? (fun v => v.nombre == n) := by
  induction vs using List.reverseRecOn with
  | nil => simp [buildDict, dictLookup]
  | append_singleton vs v ih =>
    rw [buildDict_append, dictLookup_dictInsert, List.reverse_append]
    simp only [List.reverse_singleton, List.singleton_append, List.find?_cons]
    by_cases h : n = v.nombre
    · rw [if_pos h]
      have hb : (v.nombre == n) = true := by simp [h]
      rw [hb]
    · rw [if_neg h]
      have hb : (v.nombre == n) = false := by simp [Ne.symm h]
      rw [hb]
      exact ih

/-- C10.  Building a `Modelo` from variables with repeated names succeeds
and keeps, for each name, exactly the last variable declared with it;
the variable dictionary has pairwise distinct keys whose set is the set
of declared names, and parsing a model file that repeats a variable
name likewise succeeds with one entry per distinct name. -/
theorem claim_C10 :
    (∀ (f : String) (vs : List Variable) (n : String),
      dictLookup (Modelo.mk' f vs).vars n = vs.reverse.find? (fun v => v.nombre == n)
      ∧ ((Modelo.mk' f vs).vars.map Prod.fst).Nodup
      ∧ (n ∈ (Modelo.mk' f vs).vars.map Prod.fst ↔ n ∈ vs.map Variable.nombre))
    ∧ (∀ (texto : String) (m : Modelo), parsear texto = .ok m →
        (m.vars.map Prod.fst).Nodup) := by
  constructor
  · intro f vs n
    exact ⟨dictLookup_buildDict vs n, keys_buildDict_nodup vs, mem_keys_buildDict vs n⟩
  · intro texto m h
    unfold parsear at h
    split at h
    · exact absurd h (by simp)
    · split at h
      · exact absurd h (by simp)
      · split at h
        · exact absurd h (by simp)
        · injection h with h'
          rw [← h']
          exact keys_buildDict_nodup _

/-- C10 witness: parsing a model text that declares `x` twice succeeds and
keeps the later declaration, with a duplicate-free key set. -/
theorem claim_C10_witness :
    ((Modelo.mk ("x")
        [(("x"), Variable.mk ("x") ("uniform") [(("min"), 4)])]).vars.map Prod.fst).Nodup :=
  claim_C10.2 textoDuplicado
    (Modelo.mk ("x") [(("x"), Variable.mk ("x") ("uniform") [(("min"), 4)])])
    (by with_unfolding_all rfl)

/-- C2 witness: a run whose first publish hits a lost connection and whose
retry succeeds ends in an acknowledgment. -/
theorem claim_C2_witness :
    (callbackEscenario ⟨true, true, true, .connLost, true, .ok⟩).accion = Accion.ack :=
  ((claim_C2 ⟨true, true, true, .connLost, true, .ok⟩).1).2 (by decide)

/-- C9 witness: a normal variable with an empty parameter list samples with
the default parameters. -/
theorem claim_C9_witness :
    distCall (Variable.mk' ("x") ("normal") []) = .ok (.normal 0 1) :=
  (claim_C9 ("x") []).2.2.2.2.1
